import Mathlib

/-!
Verification development for the argo_bridge tool-calling proxy.

The Python sources under study are `argo_bridge.py` (HTTP bridge core) and the
`tool_calls` package (tool-calling normalization subsystem).  The bridge core
is embedded from its source; the `tool_calls` package ships only its
`__init__.py` in this repository snapshot, so its members (`ToolInterceptor`,
`determine_model_family`, `tool_calls_to_openai`, `tool_calls_to_openai_stream`,
id generation) are modelled from the specification, guided by the repository's
own unit tests.

JSON values are modelled by an inductive `Json`; Python dicts become
association lists (keys unique, first binding wins, as in `dict` lookups).
Machine floats do not occur on any verified path, so JSON numbers are
modelled as integers.
-/

namespace ArgoBridge

/-- Model of a JSON value (Python object produced by json.loads). Numbers are
modelled as integers; floating-point payload fields occur on no verified path. -/
inductive Json where
  | null
  | bool (b : Bool)
  | num (n : Int)
  | str (s : String)
  | arr (elems : List Json)
  | obj (fields : List (String × Json))
deriving Repr

/-- The character U+007B, kept out of character-literal position. -/
def braceOpen : Char := Char.ofNat 123

/-- The character U+007D, kept out of character-literal position. -/
def braceClose : Char := Char.ofNat 125

/-- Model of Python dict key lookup: `payload.get(key)` returns the value
bound to the key when the payload is an object, None-ness is the `Option`. -/
def Json.get? : Json → String → Option Json
  | .obj fields, key => fields.lookup key
  | _, _ => none

/-- Serialization of a string body with the escapes `json.dumps` emits for the
characters that can occur here (quote, backslash, newline, tab, CR). -/
def dumpStringBody : List Char → List Char
  | [] => []
  | c :: cs =>
    (if c = '"' then ['\\', '"']
     else if c = '\\' then ['\\', '\\']
     else if c = '\n' then ['\\', 'n']
     else if c = '\t' then ['\\', 't']
     else if c = '\r' then ['\\', 'r']
     else [c]) ++ dumpStringBody cs

/-- Serialization of a JSON string literal, quotes included. -/
def dumpStr (s : String) : String :=
  "\"" ++ String.mk (dumpStringBody s.data) ++ "\""

mutual
/-- Model of Python `json.dumps` with its default separators: items joined by
a comma and a space, keys followed by a colon and a space. -/
def Json.dumps : Json → String
  | .null => "null"
  | .bool true => "true"
  | .bool false => "false"
  | .num n => toString n
  | .str s => dumpStr s
  | .arr es => "[" ++ Json.dumpsArr es ++ "]"
  | .obj fs => String.mk [braceOpen] ++ Json.dumpsObj fs ++ String.mk [braceClose]

/-- Comma-and-space separated serialization of array elements. -/
def Json.dumpsArr : List Json → String
  | [] => ""
  | [e] => Json.dumps e
  | e :: rest => Json.dumps e ++ ", " ++ Json.dumpsArr rest

/-- Comma-and-space separated serialization of object fields. -/
def Json.dumpsObj : List (String × Json) → String
  | [] => ""
  | [(k, v)] => dumpStr k ++ ": " ++ Json.dumps v
  | (k, v) :: rest => dumpStr k ++ ": " ++ Json.dumps v ++ ", " ++ Json.dumpsObj rest
end

/-- Model of Python `str(...)` on the scalar JSON values it is applied to
in `_extract_response_text`. -/
def pyStr : Json → String
  | .null => "None"
  | .bool true => "True"
  | .bool false => "False"
  | .num n => toString n
  | .str s => s
  | j => Json.dumps j

/-!  A small JSON parser modelling `json.loads` on the value subset in play
(null, booleans, integers, strings with simple escapes, arrays, objects).
It is fuel-indexed so that it is structurally recursive and hence evaluable
by the kernel; the fuel `length + 1` always suffices because every nesting
level consumes at least one character. -/

/-- Skip JSON whitespace. -/
def skipWs : List Char → List Char
  | [] => []
  | c :: cs => if c = ' ' ∨ c = '\n' ∨ c = '\t' ∨ c = '\r' then skipWs cs else c :: cs

/-- Decode one backslash escape of a JSON string: the three self-escaping
characters (quote, backslash, slash) and the usual control-letter escapes. -/
def escChar (e : Char) : Option Char :=
  if e = 'n' then some '\n'
  else if e = 't' then some '\t'
  else if e = 'r' then some '\r'
  else if e = 'b' then some (Char.ofNat 8)
  else if e = 'f' then some (Char.ofNat 12)
  else if e = '"' ∨ e = '\\' ∨ e = '/' then some e
  else none

/-- Parse the body of a JSON string after its opening quote; returns the
decoded characters and the remainder after the closing quote. -/
def parseStringBody : List Char → Option (List Char × List Char)
  | [] => none
  | '"' :: rest => some ([], rest)
  | '\\' :: e :: rest =>
      match escChar e with
      | some c => (parseStringBody rest).map fun p => (c :: p.1, p.2)
      | none => none
  | c :: rest => (parseStringBody rest).map fun p => (c :: p.1, p.2)

/-- Split a run of leading decimal digits from the input. -/
def takeDigits : List Char → (List Char × List Char)
  | [] => ([], [])
  | c :: cs =>
    if c.isDigit then
      let p := takeDigits cs
      (c :: p.1, p.2)
    else ([], c :: cs)

/-- Numeric value of a digit run. -/
def digitsVal (ds : List Char) : Nat :=
  ds.foldl (fun acc c => 10 * acc + (c.toNat - 48)) 0

mutual
/-- Parse one JSON value; returns it with the unconsumed remainder. -/
def parseValue : Nat → List Char → Option (Json × List Char)
  | 0, _ => none
  | fuel + 1, s =>
    match skipWs s with
    | [] => none
    | c :: rest =>
      if c = 'n' then
        match rest with
        | 'u' :: 'l' :: 'l' :: r => some (.null, r)
        | _ => none
      else if c = 't' then
        match rest with
        | 'r' :: 'u' :: 'e' :: r => some (.bool true, r)
        | _ => none
      else if c = 'f' then
        match rest with
        | 'a' :: 'l' :: 's' :: 'e' :: r => some (.bool false, r)
        | _ => none
      else if c = '"' then
        (parseStringBody rest).map fun p => (.str (String.mk p.1), p.2)
      else if c = '[' then
        match skipWs rest with
        | ']' :: r => some (.arr [], r)
        | r2 => (parseArrayItems fuel r2).map fun p => (.arr p.1, p.2)
      else if c = braceOpen then
        match skipWs rest with
        | cc :: r => if cc = braceClose then some (.obj [], r)
                     else (parseObjFields fuel (cc :: r)).map fun p => (.obj p.1, p.2)
        | [] => none
      else if c = '-' then
        match takeDigits rest with
        | ([], _) => none
        | (ds, r) => some (.num (-(digitsVal ds : Int)), r)
      else if c.isDigit then
        match takeDigits (c :: rest) with
        | (ds, r) => some (.num (digitsVal ds), r)
      else none

/-- Parse the comma-separated items of a non-empty JSON array up to the
closing bracket. -/
def parseArrayItems : Nat → List Char → Option (List Json × List Char)
  | 0, _ => none
  | fuel + 1, s =>
    match parseValue fuel s with
    | none => none
    | some (v, rest) =>
      match skipWs rest with
      | ',' :: r => (parseArrayItems fuel r).map fun p => (v :: p.1, p.2)
      | ']' :: r => some ([v], r)
      | _ => none

/-- Parse the comma-separated fields of a non-empty JSON object up to the
closing brace. -/
def parseObjFields : Nat → List Char → Option (List (String × Json) × List Char)
  | 0, _ => none
  | fuel + 1, s =>
    match skipWs s with
    | '"' :: rest =>
      match parseStringBody rest with
      | none => none
      | some (key, r1) =>
        match skipWs r1 with
        | ':' :: r2 =>
          match parseValue fuel r2 with
          | none => none
          | some (v, r3) =>
            match skipWs r3 with
            | ',' :: r4 => (parseObjFields fuel r4).map fun p => ((String.mk key, v) :: p.1, p.2)
            | c :: r4 => if c = braceClose then some ([(String.mk key, v)], r4) else none
            | [] => none
        | _ => none
    | _ => none
end

/-- Model of `json.loads` on a whole document: the document must parse and
leave nothing but whitespace behind. -/
def parseJson (s : String) : Option Json :=
  match parseValue (s.length + 1) s.data with
  | some (j, rest) => if (skipWs rest).isEmpty then some j else none
  | none => none

/-- Locate the first occurrence of `pat` in the input: returns the characters
before the occurrence and the characters after it. -/
def findSplit (pat : List Char) : List Char → Option (List Char × List Char)
  | [] => none
  | c :: cs =>
    if pat.isPrefixOf (c :: cs) then some ([], (c :: cs).drop pat.length)
    else (findSplit pat cs).map fun pr => (c :: pr.1, pr.2)

/-- Substring test used to model Python's `in` on strings. -/
def strContains (needle haystack : String) : Bool :=
  (findSplit needle.data haystack.data).isSome

/-- ASCII lower-casing of one character, modelling `str.lower()` on the
header values in play. -/
def lowerChar (c : Char) : Char :=
  if 'A' ≤ c ∧ c ≤ 'Z' then Char.ofNat (c.toNat + 32) else c

/-- Model of Python `str.lower()`. -/
def pyLower (s : String) : String := String.mk (s.data.map lowerChar)

/-- Whitespace class of Python `str.strip()` as it matters here. -/
def pyWsp (c : Char) : Bool := c = ' ' ∨ c = '\n' ∨ c = '\t' ∨ c = '\r'

/-- Model of Python `str.strip()`. -/
def pyStrip (s : String) : String :=
  String.mk (((s.data.dropWhile pyWsp).reverse.dropWhile pyWsp).reverse)

/-!  Universal tool-call data model and response-side interceptor.

The `tool_calls` package body is absent from this snapshot (only its
`__init__.py`, tests and callers are present), so everything in this section
is modelled from the specification, sections 3 and 4, and cross-checked
against the repository's unit tests in `tests/test_tool_calling.py`. -/

/-- Universal tool call: `arguments` is always a JSON-encoded string,
preserving the exact upstream formatting when upstream already sent a
string. -/
structure ToolCall where
  id : String
  name : String
  arguments : String
deriving Repr, DecidableEq

/-- Modelled from the spec: `generate_id` in `tool_calls.utils` synthesizes a
tool-call id when upstream omits one.  The source draws fresh identifiers; the
model uses one fixed marker since no claim depends on their spelling. -/
def generatedId : String := "call_synthesized"

/-- Modelled from the spec: the Model-Family Resolver in `tool_calls.utils`
(`determine_model_family`), a pure total function over the static model table:
GPT/o-series ids resolve to the OpenAI family, Claude ids to Anthropic,
Gemini ids to Google, and every unknown id falls back to the prompt-based
family. -/
def determine_model_family (model : String) : String :=
  if "gpt".data.isPrefixOf model.data ∨ "o1".data.isPrefixOf model.data
      ∨ "o3".data.isPrefixOf model.data ∨ "o4".data.isPrefixOf model.data then "openai"
  else if "claude".data.isPrefixOf model.data then "anthropic"
  else if "gemini".data.isPrefixOf model.data then "google"
  else "promptbased"

/-- The id of a structured tool-call entry: its `id` field when that is a
string, else a synthesized id. -/
def entryId (e : Json) : String :=
  match e.get? "id" with
  | some (.str s) => s
  | _ => generatedId

/-- Modelled from the spec: decoding of one OpenAI-shaped `tool_calls` entry.
An entry must be an object with a `function` object holding `name` and
`arguments`; any other shape is malformed and yields no call.  A string
`arguments` is kept verbatim; a structured one is re-encoded to JSON text. -/
def parseOpenAIEntry (e : Json) : Option ToolCall :=
  match e.get? "function" with
  | some (.obj fields) =>
    match (Json.obj fields).get? "name", (Json.obj fields).get? "arguments" with
    | some (.str n), some (.str args) => some ⟨entryId e, n, args⟩
    | some (.str n), some a => some ⟨entryId e, n, a.dumps⟩
    | _, _ => none
  | _ => none

/-- Modelled from the spec: decoding of one Google-shaped `tool_calls` entry.
An entry must be an object with a `name` and an argument container `args`;
non-object entries are skipped.  `arguments` is the JSON encoding of `args`. -/
def parseGoogleEntry (e : Json) : Option ToolCall :=
  match e with
  | .obj _ =>
    match e.get? "name", e.get? "args" with
    | some (.str n), some a => some ⟨entryId e, n, a.dumps⟩
    | _, _ => none
  | _ => none

/-- Modelled from the spec: decoding of one Anthropic `tool_use` block (in a
content block list or a `tool_calls` list): an object with a `name` and an
`input` object; `arguments` is the JSON encoding of `input`. -/
def parseAnthropicToolUse (e : Json) : Option ToolCall :=
  match e with
  | .obj _ =>
    match e.get? "name", e.get? "input" with
    | some (.str n), some inp => some ⟨entryId e, n, inp.dumps⟩
    | _, _ => none
  | _ => none

/-- Clean text read from a `content` field per the spec: absent or null
content is the empty string, string content is itself, structured content is
serialized to its JSON text form rather than discarded. -/
def contentText (content : Option Json) : String :=
  match content with
  | none => ""
  | some .null => ""
  | some (.str s) => s
  | some j => j.dumps

/-- The opening delimiter of the prompt-based fallback protocol. -/
def openTagChars : List Char := "<tool_call>".data

/-- The closing delimiter of the prompt-based fallback protocol. -/
def closeTagChars : List Char := "</tool_call>".data

/-- Fuel-indexed scan for delimiter-tagged segments: returns the interiors of
all complete tagged segments, in order, and the untagged fragments
concatenated.  An open tag with no later close tag ends the scan with the
remaining text kept intact. -/
def scanToolCallsF : Nat → List Char → List (List Char) × List Char
  | 0, s => ([], s)
  | fuel + 1, s =>
    match findSplit openTagChars s with
    | none => ([], s)
    | some (pre, rest) =>
      match findSplit closeTagChars rest with
      | none => ([], s)
      | some (interior, rest2) =>
        let r := scanToolCallsF fuel rest2
        (interior :: r.1, pre ++ r.2)

/-- Scan for all delimiter-tagged segments; the fuel `length + 1` always
suffices because each found segment consumes at least one character. -/
def scanToolCalls (s : List Char) : List (List Char) × List Char :=
  scanToolCallsF (s.length + 1) s

/-- Modelled from the spec: decoding of one tagged segment's interior in the
prompt-based protocol: JSON with required `name` and `arguments` fields,
`arguments` re-encoded to its JSON string form (kept verbatim when it is
already a string). -/
def parseTagInterior (s : List Char) : Option ToolCall :=
  match parseJson (String.mk s) with
  | some j =>
    match j.get? "name", j.get? "arguments" with
    | some (.str n), some (.str args) => some ⟨generatedId, n, args⟩
    | some (.str n), some a => some ⟨generatedId, n, a.dumps⟩
    | _, _ => none
  | _ => none

/-- Final shaping of the extracted call list per the spec: an
empty-but-present list is never produced, absence marks "no calls". -/
def finalizeCalls (calls : List ToolCall) : Option (List ToolCall) :=
  if calls.isEmpty then none else some calls

/-- Modelled from the spec: the prompt-based text path of the interceptor.
All tagged segments are removed from the text and the remaining fragments
concatenated; each interior yields a call when well formed and is dropped
with a warning otherwise. -/
def promptProcess (text : String) : Option (List ToolCall) × String :=
  let scanned := scanToolCalls text.data
  (finalizeCalls (scanned.1.filterMap parseTagInterior), String.mk scanned.2)

/-- Unwrapping of one `response` nesting level.  This is also the embedding of
`_extract_response_payload` in `argo_bridge.py` (lines 128-132), which the
interceptor shares. -/
def unwrapResponse (j : Json) : Json :=
  match j.get? "response" with
  | some r => r
  | none => j

/-- The `tool_calls` field read as a sequence for the OpenAI and Anthropic
families: a list is itself, anything else contributes no entries. -/
def toolCallsSeq (payload : Json) : List Json :=
  match payload.get? "tool_calls" with
  | some (.arr es) => es
  | _ => []

/-- The `tool_calls` field read for the Google family: a single object is
treated as a one-element sequence. -/
def toolCallsSeqGoogle (payload : Json) : List Json :=
  match payload.get? "tool_calls" with
  | some (.arr es) => es
  | some .null => []
  | none => []
  | some j => [j]

/-- Anthropic clean text: a plain string is used directly; a block list
contributes its text-typed blocks in order; otherwise as for `contentText`. -/
def anthropicText (payload : Json) : String :=
  match payload.get? "content" with
  | some (.arr blocks) =>
    String.join (blocks.filterMap fun b =>
      match b.get? "type", b.get? "text" with
      | some (.str "text"), some (.str t) => some t
      | _, _ => none)
  | c => contentText c

/-- Anthropic extracted calls: `tool_use`-typed blocks of a content block
list, in block order, then entries of a `tool_calls` list. -/
def anthropicCalls (payload : Json) : List ToolCall :=
  (match payload.get? "content" with
   | some (.arr blocks) =>
     blocks.filterMap fun b =>
       match b.get? "type" with
       | some (.str "tool_use") => parseAnthropicToolUse b
       | _ => none
   | _ => []) ++ (toolCallsSeq payload).filterMap parseAnthropicToolUse

/-- Modelled from the spec: `ToolInterceptor.process` in
`tool_calls.output_handle`.  One unwrapping of a `response` key is always
attempted; a bare string payload takes the prompt-based scan regardless of
family; object payloads are decoded by the declared family with malformed
entries dropped; any other top-level shape falls back to its text form with
no extracted calls. -/
def ToolInterceptor.process (payload : Json) (family : String) :
    Option (List ToolCall) × String :=
  let p := unwrapResponse payload
  match p with
  | .str text => promptProcess text
  | .obj _ =>
    if family = "openai" then
      (finalizeCalls ((toolCallsSeq p).filterMap parseOpenAIEntry),
       contentText (p.get? "content"))
    else if family = "anthropic" then
      (finalizeCalls (anthropicCalls p), anthropicText p)
    else if family = "google" then
      (finalizeCalls ((toolCallsSeqGoogle p).filterMap parseGoogleEntry),
       contentText (p.get? "content"))
    else
      promptProcess (contentText (p.get? "content"))
  | other => (none, pyStr other)

/-- OpenAI chat-completion wire shape of one tool-call function. -/
structure OpenAIFunction where
  name : String
  arguments : String
deriving Repr, DecidableEq

/-- OpenAI chat-completion wire shape of one tool call. -/
structure OpenAIToolCall where
  id : String
  type : String
  function : OpenAIFunction
deriving Repr, DecidableEq

/-- Modelled from the spec: `tool_calls_to_openai` in
`tool_calls.output_handle` for the chat-completion format, a pure
order-preserving conversion. -/
def tool_calls_to_openai (calls : List ToolCall) : List OpenAIToolCall :=
  calls.map fun tc => ⟨tc.id, "function", ⟨tc.name, tc.arguments⟩⟩

/-- OpenAI streaming-delta wire shape of one indexed incremental tool call. -/
structure DeltaToolCall where
  index : Nat
  id : String
  type : String
  function : OpenAIFunction
deriving Repr, DecidableEq

/-- Modelled from the spec: `tool_calls_to_openai_stream` in
`tool_calls.output_handle`, accepting exactly one call with its index. -/
def tool_calls_to_openai_stream (tc : ToolCall) (tc_index : Nat) : DeltaToolCall :=
  ⟨tc_index, tc.id, "function", ⟨tc.name, tc.arguments⟩⟩

/-!  Embedding of the response construction in `argo_bridge.py`. -/

/-- Embedding of `_extract_response_text` (`argo_bridge.py` lines 135-153):
textual content of an Argo response object.  Scalar non-string content, which
the Python returns unchanged, is rendered to its text form here because the
embedding is `String`-typed; no verified path reaches that corner. -/
def extractResponseText (j : Json) : String :=
  let payload := unwrapResponse j
  match payload with
  | .obj _ =>
    (match payload.get? "content" with
     | none => ""
     | some .null => ""
     | some (.obj fs) => (Json.obj fs).dumps
     | some (.arr es) => (Json.arr es).dumps
     | some (.str s) => s
     | some other => pyStr other)
  | .null => ""
  | .str s => s
  | other => pyStr other

/-- Python truthiness of the interceptor's optional call list, as used by
`if tool_calls:` in the response builders. -/
def pyTruthyCalls : Option (List ToolCall) → Bool
  | none => false
  | some l => !l.isEmpty

/-- The extracted calls of the tool-enabled response paths
(`argo_bridge.py` lines 636-648 and 685-697): the interceptor applied to the
unwrapped upstream payload under the model's family. -/
def interceptedCalls (json_response : Json) (model_base : String) : Option (List ToolCall) :=
  (ToolInterceptor.process (unwrapResponse json_response)
    (determine_model_family model_base)).1

/-- The interceptor's clean text on the same inputs. -/
def interceptedText (json_response : Json) (model_base : String) : String :=
  (ToolInterceptor.process (unwrapResponse json_response)
    (determine_model_family model_base)).2

/-- Number of tool calls extracted from an upstream payload. -/
def extractedCallCount (json_response : Json) (model_base : String) : Nat :=
  match interceptedCalls json_response model_base with
  | some l => l.length
  | none => 0

/-- Message part of the non-streaming tool-enabled chat response. -/
structure ChatMessage where
  role : String
  content : String
  tool_calls : Option (List OpenAIToolCall)
deriving Repr, DecidableEq

/-- Choice part of the non-streaming tool-enabled chat response. -/
structure ChatChoice where
  message : ChatMessage
  finish_reason : String
deriving Repr, DecidableEq

/-- Embedding of `_static_chat_response_with_tools` (`argo_bridge.py` lines
632-678), restricted to its single choice; the constant envelope fields
(id, object, created, model) carry no verified content.  `text` is the
caller-supplied fallback content. -/
def staticChatResponseWithTools (text : String) (model_base : String)
    (json_response : Json) : ChatChoice :=
  let tool_calls := interceptedCalls json_response model_base
  let clean_text0 := interceptedText json_response model_base
  let clean_text := if clean_text0 = "" then text else clean_text0
  let finish_reason := if pyTruthyCalls tool_calls then "tool_calls" else "stop"
  let openai_tool_calls :=
    if pyTruthyCalls tool_calls then some (tool_calls_to_openai (tool_calls.getD []))
    else none
  ⟨⟨"assistant", clean_text, openai_tool_calls⟩, finish_reason⟩

/-- Delta of one emitted streaming chunk. -/
structure Delta where
  role : Option String
  content : Option String
  tool_calls : Option (List DeltaToolCall)
deriving Repr, DecidableEq

/-- One item of the server-sent-event stream: a chat-completion chunk or the
terminating `data: [DONE]` sentinel. -/
inductive SSEItem where
  | chunk (model : String) (delta : Delta) (finish_reason : Option String)
  | done
deriving Repr, DecidableEq

/-- Assembly of the synthetic chunk sequence from a clean text and an
optional call list (`argo_bridge.py` lines 702-771): role chunk, one content
chunk when the text is non-empty, one indexed chunk per call, a terminal
chunk with an empty delta, and the sentinel. -/
def assembleStream (model : String) (clean_text : String)
    (tool_calls : Option (List ToolCall)) : List SSEItem :=
  [SSEItem.chunk model ⟨some "assistant", some "", none⟩ none]
  ++ (if clean_text = "" then []
      else [SSEItem.chunk model ⟨none, some clean_text, none⟩ none])
  ++ (if pyTruthyCalls tool_calls then
        (tool_calls.getD []).enum.map fun p =>
          SSEItem.chunk model
            ⟨none, none, some [tool_calls_to_openai_stream p.2 p.1]⟩ none
      else [])
  ++ [SSEItem.chunk model ⟨none, none, none⟩
        (some (if pyTruthyCalls tool_calls then "tool_calls" else "stop")),
      SSEItem.done]

/-- The clean text used by the fake streaming path (`argo_bridge.py` lines
694-700): the interceptor's clean text, falling back to the full extracted
response text when it is empty. -/
def fakeStreamCleanText (json_response : Json) (model_base : String) : String :=
  let clean_text0 := interceptedText json_response model_base
  if clean_text0 = "" then extractResponseText (unwrapResponse json_response)
  else clean_text0

/-- Embedding of `_fake_stream_response_with_tools` (`argo_bridge.py` lines
681-771) as the list of emitted stream items. -/
def fakeStreamResponseWithTools (json_response : Json) (model model_base : String) :
    List SSEItem :=
  assembleStream model (fakeStreamCleanText json_response model_base)
    (interceptedCalls json_response model_base)

/-!  Embedding of the upstream error proxying in `argo_bridge.py`. -/

/-- Model of a `requests` response as the bridge reads it: status code,
reason phrase, the `Content-Type` header value (empty when absent) and the
body text.  `response.json()` is parsing of that text. -/
structure HttpResponse where
  status_code : Int
  reason : String
  content_type : String
  text : String
deriving Repr, DecidableEq

/-- Model of `requests.Response.ok`: true for status codes below 400. -/
def HttpResponse.ok (r : HttpResponse) : Bool := r.status_code < 400

/-- A parsed body kept only when it is a JSON container (dict or list). -/
def jsonContainer? : Option Json → Option Json
  | some (.obj fs) => some (.obj fs)
  | some (.arr es) => some (.arr es)
  | _ => none

/-- Embedding of `_try_get_json_from_response` (`argo_bridge.py` lines
272-307): first the Content-Type-gated parse of the body text, then the
`response.json()` call, then an unconditional parse of the body text; each
step accepts only a dict or list result. -/
def tryGetJsonFromResponse (r : HttpResponse) : Option Json :=
  let fromText :=
    if r.text = "" then none else jsonContainer? (parseJson r.text)
  let fromJsonMethod := jsonContainer? (parseJson r.text)
  match (if strContains "application/json" (pyLower r.content_type)
         then fromText else none) with
  | some b => some b
  | none =>
    match fromJsonMethod with
    | some b => some b
    | none => fromText

/-- Embedding of `_proxy_argo_error_response` (`argo_bridge.py` lines
309-328) with its default fallback status 500: the proxied JSON body under
the upstream status, or the generic error envelope. -/
def proxyArgoErrorResponse (r : HttpResponse) : Json × Int :=
  match tryGetJsonFromResponse r with
  | some body => (body, r.status_code)
  | none =>
    (Json.obj [("error", Json.obj [("message",
        Json.str (pyStrip ("Internal API error: " ++ toString r.status_code
                           ++ " " ++ r.reason)))])],
     500)

/-- The upstream-error branch shared by the chat, completions and
fake-streaming request handlers (`argo_bridge.py` lines 424-427, 452-455,
854-857): a non-OK upstream response is proxied, an OK one is not. -/
def upstreamErrorResult (r : HttpResponse) : Option (Json × Int) :=
  if r.ok then none else some (proxyArgoErrorResponse r)

/-!  Embedding of the embeddings batching in `argo_bridge.py`. -/

/-- Error data captured by `ArgoAPIError` (`argo_bridge.py` lines 264-270). -/
structure ArgoAPIError where
  status_code : Int
  reason : String
  body : Option Json
deriving Repr

/-- Construction of an `ArgoAPIError` from a failed response. -/
def mkArgoAPIError (r : HttpResponse) : ArgoAPIError :=
  ⟨r.status_code, r.reason, tryGetJsonFromResponse r⟩

/-- The embedding list of one batch response:
`response.json().get("embedding", [])`. -/
def embeddingsOf (r : HttpResponse) : List Json :=
  match parseJson r.text with
  | some j =>
    (match j.get? "embedding" with
     | some (.arr es) => es
     | _ => [])
  | none => []

/-- Fuel-indexed embedding of the batch loop of `_get_embeddings_from_argo`
(`argo_bridge.py` lines 970-998): issue one upstream request per consecutive
batch of at most 16 texts, concatenate the per-batch embeddings, and raise
`ArgoAPIError` at the first non-OK batch response. -/
def getEmbeddingsF (post : List String → HttpResponse) :
    Nat → List String → Except ArgoAPIError (List Json)
  | 0, _ => .ok []
  | fuel + 1, texts =>
    match texts with
    | [] => .ok []
    | t :: ts =>
      let r := post ((t :: ts).take 16)
      if r.ok then
        match getEmbeddingsF post fuel ((t :: ts).drop 16) with
        | .ok rest => .ok (embeddingsOf r ++ rest)
        | .error e => .error e
      else .error (mkArgoAPIError r)

/-- Embedding of `_get_embeddings_from_argo`; the fuel `length + 1` always
suffices because every round consumes at least one text. -/
def getEmbeddingsFromArgo (post : List String → HttpResponse)
    (texts : List String) : Except ArgoAPIError (List Json) :=
  getEmbeddingsF post (texts.length + 1) texts

/-- Fuel-indexed batching of the input texts exactly as the loop slices them. -/
def chunks16F : Nat → List String → List (List String)
  | 0, _ => []
  | fuel + 1, texts =>
    match texts with
    | [] => []
    | t :: ts => (t :: ts).take 16 :: chunks16F fuel ((t :: ts).drop 16)

/-- The consecutive batches of at most 16 texts the loop works through. -/
def chunks16 (texts : List String) : List (List String) :=
  chunks16F (texts.length + 1) texts

/-!  Embedding of the native-tool decision in `chat_completions`. -/

/-- Embedding of the decision at `argo_bridge.py` line 380:
`use_native_tools = model_family in ["openai", "anthropic"]`. -/
def use_native_tools_for (model_family : String) : Bool :=
  model_family = "openai" ∨ model_family = "anthropic"

/-- The native-versus-prompt decision of `chat_completions` for a resolved
model (`argo_bridge.py` lines 379-380). -/
def chatUsesNativeTools (model : String) : Bool :=
  use_native_tools_for (determine_model_family model)

/-!  Observations on emitted stream items. -/

/-- Whether a stream item carries text content: its delta has a non-empty
`content` value (matching the truthiness test clients apply to deltas). -/
def carriesText : SSEItem → Bool
  | .chunk _ d _ => d.content.any fun s => !(s == "")
  | .done => false

/-- Whether a stream item carries a tool-call delta. -/
def carriesToolCalls : SSEItem → Bool
  | .chunk _ d _ => d.tool_calls.any fun l => !l.isEmpty
  | .done => false

/-!  Concrete payloads reused by the witness theorems. -/

/-- An OpenAI-shaped upstream payload with text content and one tool call. -/
def witnessPayloadMixed : Json :=
  Json.obj [("content", Json.str "Of course, I can help with that."),
    ("tool_calls", Json.arr [Json.obj
      [("id", Json.str "call_456"),
       ("function", Json.obj [("name", Json.str "get_weather"),
         ("arguments", Json.str "\x7b\"location\": \"Chicago\"\x7d")])]])]

/-- The mixed well-formed/malformed entry list of the repository test
`test_tool_interceptor_ignores_malformed_entry`. -/
def witnessEntriesMixed : List Json :=
  [Json.obj [("id", Json.str "call_good"), ("type", Json.str "function"),
     ("function", Json.obj [("name", Json.str "add"),
       ("arguments", Json.str "\x7b\"a\":1\x7d")])],
   Json.obj [("id", Json.str "call_bad"), ("type", Json.str "function"),
     ("function", Json.str "not-a-dict")]]

/-- A response payload that is nothing but tool-call markup. -/
def witnessMarkupOnly : Json :=
  Json.str "<tool_call>\x7b\"name\":\"f\",\"arguments\":\x7b\x7d\x7d</tool_call>"

/-- A non-OK upstream response carrying a JSON array body. -/
def witnessBadResponse : HttpResponse :=
  ⟨400, "Bad Request", "application/json", "[1]"⟩

/-- An OK upstream embedding response with two embeddings. -/
def witnessEmbResponse : HttpResponse :=
  ⟨200, "OK", "application/json", "\x7b\"embedding\": [null, null]\x7d"⟩

/-!  Helper lemmas. -/

/-- A finalized call list is never the empty list. -/
theorem finalizeCalls_some_ne_nil (calls l : List ToolCall)
    (h : finalizeCalls calls = some l) : l ≠ [] := by
  unfold finalizeCalls at h
  split at h
  · exact absurd h (by simp)
  · rename_i hne
    cases h
    intro hnil
    subst hnil
    simp at hne

/-- The occurrence finder succeeds exactly on inputs containing the
(non-empty) pattern as an infix. -/
theorem findSplit_isSome_iff (pat : List Char) (hp : pat ≠ []) (l : List Char) :
    (findSplit pat l).isSome = true ↔ pat <:+: l := by
  induction l with
  | nil => simp [findSplit, List.infix_nil, hp]
  | cons c cs ih =>
    by_cases hpre : pat.isPrefixOf (c :: cs)
    · simp only [findSplit, hpre, if_true, Option.isSome_some, true_iff]
      exact List.IsPrefix.isInfix ((List.isPrefixOf_iff_prefix).mp hpre)
    · have hnp : ¬ pat <+: c :: cs :=
        fun hple => hpre ((List.isPrefixOf_iff_prefix).mpr hple)
      simp only [findSplit, hpre, if_false, Bool.false_eq_true]
      rw [List.infix_cons_iff]
      simp [Option.isSome_map, ih, hnp]

end ArgoBridge

namespace ArgoBridge

/-- C7: the interceptor leaves already-clean text untouched: for every model
family and every text payload with no tool-call open tag, processing returns
absent tool calls and the text unchanged. -/
theorem untagged_text_is_unchanged (family : String) (text : String)
    (h : ¬ openTagChars <:+: text.data) :
    ToolInterceptor.process (Json.str text) family = (none, text) := by
  have hfs : findSplit openTagChars text.data = none := by
    rcases hq : findSplit openTagChars text.data with _ | v
    · rfl
    · exact absurd ((findSplit_isSome_iff openTagChars (by decide) text.data).mp
        (by rw [hq]; rfl)) h
  show promptProcess text = (none, text)
  unfold promptProcess scanToolCalls
  rw [scanToolCallsF, hfs]
  rfl

/-- Witness for C7 at a concrete clean text and family. -/
theorem untagged_text_is_unchanged_witness :
    (¬ openTagChars <:+: "Hello world".data)
    ∧ ToolInterceptor.process (Json.str "Hello world") "google"
        = (none, "Hello world") :=
  ⟨by decide, untagged_text_is_unchanged "google" "Hello world" (by decide)⟩

/-- C6: processing the tagged text
"Pre text(tool_call)...name add, arguments a=1...(/tool_call)post text" with
any family yields exactly one call named `add` whose arguments are the JSON
encoding of the one-field object a=1, and the clean text is exactly the
concatenation "Pre textpost text" of the untagged fragments. -/
theorem prompt_based_concrete_parse (family : String) :
    ToolInterceptor.process
      (Json.str "Pre text<tool_call>\x7b\"name\":\"add\",\"arguments\":\x7b\"a\":1\x7d\x7d</tool_call>post text")
      family
    = (some [⟨generatedId, "add", (Json.obj [("a", Json.num 1)]).dumps⟩],
       "Pre textpost text") := by
  rfl

/-- C5: the interceptor never returns an empty-but-present tool-call list:
whenever the first component is present it is non-empty, so callers can test
for absence rather than length. -/
theorem interceptor_never_returns_empty_list (payload : Json) (family : String)
    (l : List ToolCall)
    (h : (ToolInterceptor.process payload family).1 = some l) : l ≠ [] := by
  unfold ToolInterceptor.process at h
  rcases hu : unwrapResponse payload with _ | b | n | text | es | fs <;>
    rw [hu] at h <;> simp only at h
  · exact absurd h (by simp)
  · exact absurd h (by simp)
  · exact absurd h (by simp)
  · exact finalizeCalls_some_ne_nil _ _ h
  · exact absurd h (by simp)
  · split at h
    · exact finalizeCalls_some_ne_nil _ _ h
    · split at h
      · exact finalizeCalls_some_ne_nil _ _ h
      · split at h
        · exact finalizeCalls_some_ne_nil _ _ h
        · exact finalizeCalls_some_ne_nil _ _ h

/-- Witness for C5 at a concrete OpenAI payload with one extracted call. -/
theorem interceptor_never_returns_empty_list_witness :
    (ToolInterceptor.process
        (Json.obj [("content", Json.null), ("tool_calls", Json.arr [Json.obj
          [("id", Json.str "call_test"),
           ("function", Json.obj [("name", Json.str "add"),
             ("arguments", Json.str "\x7b\"a\":8\x7d")])]])])
        "openai").1
      = some [⟨"call_test", "add", "\x7b\"a\":8\x7d"⟩]
    ∧ ([(⟨"call_test", "add", "\x7b\"a\":8\x7d"⟩ : ToolCall)] ≠ []) :=
  ⟨by rfl,
   interceptor_never_returns_empty_list
     (Json.obj [("content", Json.null), ("tool_calls", Json.arr [Json.obj
       [("id", Json.str "call_test"),
        ("function", Json.obj [("name", Json.str "add"),
          ("arguments", Json.str "\x7b\"a\":8\x7d")])]])])
     "openai" [⟨"call_test", "add", "\x7b\"a\":8\x7d"⟩] (by rfl)⟩

/-- C3 counterexample: a supported Gemini model resolves to the Google
family, yet the bridge's decision bit for native tool calling is false for
it, so the Google family does not get native tool calling. -/
theorem google_family_not_native_counterexample :
    determine_model_family "gemini25pro" = "google"
    ∧ chatUsesNativeTools "gemini25pro" = false
    ∧ use_native_tools_for "google" = false :=
  ⟨rfl, rfl, rfl⟩

/-- C3 (amended): the bridge uses native tool calling exactly when the
requested model resolves to the OpenAI or Anthropic family; Google-family
models take the prompt-based fallback. -/
theorem native_tool_decision_amended (model : String) :
    chatUsesNativeTools model = true ↔
      (determine_model_family model = "openai"
       ∨ determine_model_family model = "anthropic") := by
  simp [chatUsesNativeTools, use_native_tools_for]

/-- In a list split as a tool-free part followed by a text-free part, every
position carrying text precedes every position carrying a tool-call delta. -/
theorem textBeforeToolsOfEq (l l1 l2 : List SSEItem) (hl : l = l1 ++ l2)
    (h1 : ∀ x ∈ l1, carriesToolCalls x = false)
    (h2 : ∀ x ∈ l2, carriesText x = false)
    (i j : Nat) (hi : i < l.length) (hj : j < l.length)
    (ht : carriesText (l.get ⟨i, hi⟩) = true)
    (hc : carriesToolCalls (l.get ⟨j, hj⟩) = true) : i < j := by
  subst hl
  rw [List.get_eq_getElem] at ht hc
  rcases Nat.lt_or_ge j l1.length with hj1 | hj1
  · rw [List.getElem_append_left hj1] at hc
    have hf := h1 _ (List.getElem_mem hj1)
    rw [hf] at hc
    exact absurd hc (by simp)
  · rcases Nat.lt_or_ge i l1.length with hi1 | hi1
    · exact Nat.lt_of_lt_of_le hi1 hj1
    · have hib : i - l1.length < l2.length := by
        have hlen := List.length_append l1 l2
        omega
      rw [List.getElem_append_right hi1] at ht
      have hf := h2 _ (List.getElem_mem hib)
      rw [hf] at ht
      exact absurd ht (by simp)

/-- C1: in the synthetic stream assembled by the fake streaming generator,
every chunk carrying text content occupies an earlier position than every
chunk carrying a tool-call delta, for every upstream payload and model; the
last content position being strictly below the first tool-call position is
the instance at those positions. -/
theorem stream_content_chunks_precede_tool_chunks
    (json_response : Json) (model model_base : String) (i j : Nat)
    (hi : i < (fakeStreamResponseWithTools json_response model model_base).length)
    (hj : j < (fakeStreamResponseWithTools json_response model model_base).length)
    (ht : carriesText ((fakeStreamResponseWithTools json_response model model_base).get
      ⟨i, hi⟩) = true)
    (hc : carriesToolCalls ((fakeStreamResponseWithTools json_response model model_base).get
      ⟨j, hj⟩) = true) : i < j := by
  refine textBeforeToolsOfEq _
    ([SSEItem.chunk model ⟨some "assistant", some "", none⟩ none]
      ++ (if fakeStreamCleanText json_response model_base = "" then []
          else [SSEItem.chunk model
            ⟨none, some (fakeStreamCleanText json_response model_base), none⟩ none]))
    ((if pyTruthyCalls (interceptedCalls json_response model_base) then
        ((interceptedCalls json_response model_base).getD []).enum.map fun p =>
          SSEItem.chunk model
            ⟨none, none, some [tool_calls_to_openai_stream p.2 p.1]⟩ none
      else [])
      ++ [SSEItem.chunk model ⟨none, none, none⟩
            (some (if pyTruthyCalls (interceptedCalls json_response model_base)
                   then "tool_calls" else "stop")),
          SSEItem.done])
    (by simp [fakeStreamResponseWithTools, assembleStream]) ?_ ?_ i j hi hj ht hc
  · intro x hx
    simp only [List.mem_append, List.mem_cons, List.not_mem_nil, or_false] at hx
    rcases hx with rfl | hx
    · rfl
    · by_cases hct : fakeStreamCleanText json_response model_base = ""
      · simp [hct] at hx
      · simp only [hct, if_false, List.mem_cons, List.not_mem_nil, or_false] at hx
        subst hx
        rfl
  · intro x hx
    simp only [List.mem_append, List.mem_cons, List.not_mem_nil, or_false] at hx
    rcases hx with hx | rfl | rfl
    · by_cases htc : pyTruthyCalls (interceptedCalls json_response model_base)
      · simp only [htc, if_true, List.mem_map] at hx
        obtain ⟨p, _, rfl⟩ := hx
        rfl
      · simp [htc] at hx
    · rfl
    · rfl

/-- Witness for C1 at a mixed text-plus-tool-call payload: position 1 is the
content chunk, position 2 the tool-call chunk. -/
theorem stream_content_chunks_precede_tool_chunks_witness :
    carriesText ((fakeStreamResponseWithTools witnessPayloadMixed "gpt4o" "gpt4o").get
      ⟨1, by decide⟩) = true
    ∧ carriesToolCalls ((fakeStreamResponseWithTools witnessPayloadMixed "gpt4o" "gpt4o").get
      ⟨2, by decide⟩) = true
    ∧ 1 < 2 :=
  ⟨by decide, by decide,
   stream_content_chunks_precede_tool_chunks witnessPayloadMixed "gpt4o" "gpt4o" 1 2
     (by decide) (by decide) (by decide) (by decide)⟩

/-- C2: entry-level malformation is soft.  For OpenAI- and Google-shaped
object payloads the interceptor's result is the total function that keeps
exactly the well-formed entries, in order (so it is defined on every entry
list, malformed entries included); every well-formed entry contributes its
call; and the malformed entries of the repository tests decode to nothing. -/
theorem interceptor_entry_malformation_is_soft (entries : List Json) (content : Json) :
    ToolInterceptor.process
        (Json.obj [("content", content), ("tool_calls", Json.arr entries)]) "openai"
      = (finalizeCalls (entries.filterMap parseOpenAIEntry), contentText (some content))
    ∧ ToolInterceptor.process
        (Json.obj [("content", content), ("tool_calls", Json.arr entries)]) "google"
      = (finalizeCalls (entries.filterMap parseGoogleEntry), contentText (some content))
    ∧ (∀ e ∈ entries, ∀ tc, parseOpenAIEntry e = some tc →
        tc ∈ entries.filterMap parseOpenAIEntry)
    ∧ (∀ e ∈ entries, ∀ tc, parseGoogleEntry e = some tc →
        tc ∈ entries.filterMap parseGoogleEntry)
    ∧ parseOpenAIEntry (Json.obj [("id", Json.str "call_bad"),
        ("type", Json.str "function"), ("function", Json.str "not-a-dict")]) = none
    ∧ parseGoogleEntry (Json.str "unexpected") = none :=
  ⟨rfl, rfl,
   fun e he tc htc => List.mem_filterMap.mpr ⟨e, he, htc⟩,
   fun e he tc htc => List.mem_filterMap.mpr ⟨e, he, htc⟩,
   rfl, rfl⟩

/-- Witness for C2 at the mixed well-formed/malformed test payload: the
well-formed entry survives, the malformed one is dropped, no failure. -/
theorem interceptor_entry_malformation_is_soft_witness :
    ToolInterceptor.process
        (Json.obj [("content", Json.null), ("tool_calls", Json.arr witnessEntriesMixed)])
        "openai"
      = (some [⟨"call_good", "add", "\x7b\"a\":1\x7d"⟩], "") := by
  have h := interceptor_entry_malformation_is_soft witnessEntriesMixed Json.null
  exact h.1.trans (by rfl)

/-- Truthiness of the extracted calls matches positivity of their count. -/
theorem pyTruthyCalls_iff_pos (json_response : Json) (model_base : String) :
    pyTruthyCalls (interceptedCalls json_response model_base) = true
      ↔ 0 < extractedCallCount json_response model_base := by
  rcases h : interceptedCalls json_response model_base with _ | l
  · simp [pyTruthyCalls, extractedCallCount, h]
  · cases l <;> simp [pyTruthyCalls, extractedCallCount, h]

/-- C4: the finish reason is "tool_calls" exactly when at least one tool
call was extracted and "stop" exactly when none was, both in the
non-streaming choice and in the terminal empty-delta chunk of the emulated
stream. -/
theorem finish_reason_iff_calls (text : String) (model model_base : String)
    (json_response : Json) :
    ((staticChatResponseWithTools text model_base json_response).finish_reason = "tool_calls"
      ↔ 0 < extractedCallCount json_response model_base)
    ∧ ((staticChatResponseWithTools text model_base json_response).finish_reason = "stop"
      ↔ extractedCallCount json_response model_base = 0)
    ∧ (∃ pre, fakeStreamResponseWithTools json_response model model_base
        = pre ++ [SSEItem.chunk model ⟨none, none, none⟩
            (some ((staticChatResponseWithTools text model_base json_response).finish_reason)),
          SSEItem.done]) := by
  have hfr : (staticChatResponseWithTools text model_base json_response).finish_reason
      = if pyTruthyCalls (interceptedCalls json_response model_base) then "tool_calls"
        else "stop" := rfl
  have hiff := pyTruthyCalls_iff_pos json_response model_base
  refine ⟨?_, ?_, ?_⟩
  · rw [hfr]
    by_cases hb : pyTruthyCalls (interceptedCalls json_response model_base) = true
    · simp [hb, hiff.mp hb]
    · have h0 : extractedCallCount json_response model_base = 0 := by
        rcases Nat.eq_zero_or_pos (extractedCallCount json_response model_base) with h | h
        · exact h
        · exact absurd (hiff.mpr h) hb
      simp only [hb, if_false, h0]
      decide
  · rw [hfr]
    by_cases hb : pyTruthyCalls (interceptedCalls json_response model_base) = true
    · have hpos := hiff.mp hb
      simp only [hb, if_true]
      constructor
      · intro heq
        exact absurd heq (by decide)
      · intro h0
        omega
    · have h0 : extractedCallCount json_response model_base = 0 := by
        rcases Nat.eq_zero_or_pos (extractedCallCount json_response model_base) with h | h
        · exact h
        · exact absurd (hiff.mpr h) hb
      simp [hb, h0]
  · refine ⟨[SSEItem.chunk model ⟨some "assistant", some "", none⟩ none]
      ++ (if fakeStreamCleanText json_response model_base = "" then []
          else [SSEItem.chunk model
            ⟨none, some (fakeStreamCleanText json_response model_base), none⟩ none])
      ++ (if pyTruthyCalls (interceptedCalls json_response model_base) then
            ((interceptedCalls json_response model_base).getD []).enum.map fun p =>
              SSEItem.chunk model
                ⟨none, none, some [tool_calls_to_openai_stream p.2 p.1]⟩ none
          else []), ?_⟩
    rw [hfr]
    simp [fakeStreamResponseWithTools, assembleStream, List.append_assoc]

/-- The three-step extraction agrees with the container filter applied to
the parsed body text, on every response. -/
theorem tryGetJson_eq (r : HttpResponse) :
    tryGetJsonFromResponse r = jsonContainer? (parseJson r.text) := by
  unfold tryGetJsonFromResponse
  rcases he : jsonContainer? (parseJson r.text) with _ | v <;>
    by_cases htext : r.text = "" <;>
      by_cases hct : strContains "application/json" (pyLower r.content_type) = true <;>
        simp [htext, hct]

/-- The body a successful JSON extraction returns always came from the
container filter on the parsed body text. -/
theorem tryGetJson_eq_container (r : HttpResponse) (b : Json)
    (h : tryGetJsonFromResponse r = some b) :
    jsonContainer? (parseJson r.text) = some b :=
  (tryGetJson_eq r).symm.trans h

/-- A value accepted by the container filter is an object or an array. -/
theorem jsonContainerShape (o : Option Json) (b : Json)
    (h : jsonContainer? o = some b) :
    (∃ fs, b = Json.obj fs) ∨ (∃ es, b = Json.arr es) := by
  unfold jsonContainer? at h
  split at h
  · cases h
    exact Or.inl ⟨_, rfl⟩
  · cases h
    exact Or.inr ⟨_, rfl⟩
  · cases h

/-- C8: a non-OK upstream response is proxied verbatim under the upstream's
status code whenever its body yields a JSON object or array, and otherwise
wrapped in the generic error envelope under the fallback status 500. -/
theorem upstream_error_passthrough (r : HttpResponse) (h : r.ok = false) :
    (∀ body, tryGetJsonFromResponse r = some body →
      upstreamErrorResult r = some (body, r.status_code)
      ∧ ((∃ fs, body = Json.obj fs) ∨ (∃ es, body = Json.arr es)))
    ∧ (tryGetJsonFromResponse r = none →
      upstreamErrorResult r = some (Json.obj [("error", Json.obj [("message",
          Json.str (pyStrip ("Internal API error: " ++ toString r.status_code
            ++ " " ++ r.reason)))])], 500)) := by
  constructor
  · intro body hb
    refine ⟨?_, jsonContainerShape _ _ (tryGetJson_eq_container r body hb)⟩
    simp [upstreamErrorResult, h, proxyArgoErrorResponse, hb]
  · intro hn
    simp [upstreamErrorResult, h, proxyArgoErrorResponse, hn]

/-- Witness for C8 at a 400 response with a JSON array body. -/
theorem upstream_error_passthrough_witness :
    HttpResponse.ok witnessBadResponse = false
    ∧ tryGetJsonFromResponse witnessBadResponse = some (Json.arr [Json.num 1])
    ∧ upstreamErrorResult witnessBadResponse = some (Json.arr [Json.num 1], 400) :=
  ⟨by decide, by rfl,
   ((upstream_error_passthrough witnessBadResponse (by decide)).1
     (Json.arr [Json.num 1]) (by rfl)).1⟩

/-- C9: when the interceptor's clean text is empty, both tool-enabled
response paths fall back to the full extracted response text as the
assistant content; when that fallback text is non-empty the emulated stream
carries it in a content chunk. -/
theorem empty_clean_text_falls_back (json_response : Json) (model model_base : String)
    (h : interceptedText json_response model_base = "") :
    (staticChatResponseWithTools (extractResponseText json_response) model_base
        json_response).message.content = extractResponseText json_response
    ∧ fakeStreamCleanText json_response model_base
        = extractResponseText (unwrapResponse json_response)
    ∧ (extractResponseText (unwrapResponse json_response) ≠ "" →
        SSEItem.chunk model
          ⟨none, some (extractResponseText (unwrapResponse json_response)), none⟩ none
          ∈ fakeStreamResponseWithTools json_response model model_base) := by
  have h2 : fakeStreamCleanText json_response model_base
      = extractResponseText (unwrapResponse json_response) := by
    simp [fakeStreamCleanText, h]
  refine ⟨?_, h2, ?_⟩
  · simp [staticChatResponseWithTools, h]
  · intro hne
    simp [fakeStreamResponseWithTools, assembleStream, h2, hne]

/-- Witness for C9 at a payload that is nothing but tool-call markup: the
raw markup text becomes the assistant content. -/
theorem empty_clean_text_falls_back_witness :
    interceptedText witnessMarkupOnly "gpt4o" = ""
    ∧ (staticChatResponseWithTools (extractResponseText witnessMarkupOnly) "gpt4o"
        witnessMarkupOnly).message.content = extractResponseText witnessMarkupOnly :=
  ⟨by rfl,
   (empty_clean_text_falls_back witnessMarkupOnly "gpt4o" "gpt4o" (by rfl)).1⟩

/-- Every batch the loop slices holds between 1 and 16 texts. -/
theorem chunks16F_len_le (fuel : Nat) :
    ∀ texts : List String, ∀ c ∈ chunks16F fuel texts, c.length ≤ 16 ∧ c ≠ [] := by
  induction fuel with
  | zero =>
    intro texts c hc
    simp [chunks16F] at hc
  | succ fuel ih =>
    intro texts c hc
    match texts with
    | [] => simp [chunks16F] at hc
    | t :: ts =>
      simp only [chunks16F, List.mem_cons] at hc
      rcases hc with rfl | hc
      · refine ⟨?_, ?_⟩
        · simpa using List.length_take_le 16 (t :: ts)
        · simp [List.take_succ_cons]
      · exact ih _ _ hc

/-- The batches concatenate back to the input list. -/
theorem chunks16F_flatten (fuel : Nat) :
    ∀ texts : List String, texts.length ≤ fuel → (chunks16F fuel texts).flatten = texts := by
  induction fuel with
  | zero =>
    intro texts h
    have hnil : texts = [] := List.length_eq_zero.mp (Nat.le_zero.mp h)
    subst hnil
    rfl
  | succ fuel ih =>
    intro texts h
    match texts with
    | [] => rfl
    | t :: ts =>
      simp only [chunks16F, List.flatten_cons]
      rw [ih ((t :: ts).drop 16) (by simp only [List.length_drop, List.length_cons] at *; omega),
        List.take_append_drop]

/-- When every batch response is OK and carries one embedding per batch
text, the loop returns the concatenated embeddings of all input texts. -/
theorem getEmbeddingsF_ok (post : List String → HttpResponse) (g : String → Json)
    (fuel : Nat) :
    ∀ texts : List String, texts.length ≤ fuel →
    (∀ b ∈ chunks16F fuel texts, (post b).ok = true ∧ embeddingsOf (post b) = b.map g) →
    getEmbeddingsF post fuel texts = .ok (texts.map g) := by
  induction fuel with
  | zero =>
    intro texts hl _
    have hnil : texts = [] := List.length_eq_zero.mp (Nat.le_zero.mp hl)
    subst hnil
    rfl
  | succ fuel ih =>
    intro texts hl h
    match texts with
    | [] => rfl
    | t :: ts =>
      obtain ⟨hok, hemb⟩ := h ((t :: ts).take 16) (by simp [chunks16F])
      have hrec := ih ((t :: ts).drop 16)
        (by simp only [List.length_drop, List.length_cons] at *; omega)
        (fun b hb => h b (by simp only [chunks16F, List.mem_cons]; exact Or.inr hb))
      simp only [getEmbeddingsF, hok, if_true, hrec, hemb]
      rw [← List.map_append, List.take_append_drop]

/-- When some batch response is not OK, the loop raises. -/
theorem getEmbeddingsF_error (post : List String → HttpResponse) (fuel : Nat) :
    ∀ texts : List String,
    (∃ b ∈ chunks16F fuel texts, (post b).ok = false) →
    ∃ e, getEmbeddingsF post fuel texts = .error e := by
  induction fuel with
  | zero =>
    intro texts hex
    obtain ⟨b, hb, _⟩ := hex
    simp [chunks16F] at hb
  | succ fuel ih =>
    intro texts hex
    obtain ⟨b, hb, hfail⟩ := hex
    match texts with
    | [] => simp [chunks16F] at hb
    | t :: ts =>
      simp only [chunks16F, List.mem_cons] at hb
      by_cases hok : (post ((t :: ts).take 16)).ok = true
      · rcases hb with rfl | hb
        · rw [hok] at hfail
          cases hfail
        · obtain ⟨e, he⟩ := ih ((t :: ts).drop 16) ⟨b, hb, hfail⟩
          exact ⟨e, by simp only [getEmbeddingsF, hok, if_true, he]⟩
      · simp only [Bool.not_eq_true] at hok
        exact ⟨mkArgoAPIError (post ((t :: ts).take 16)),
          by simp only [getEmbeddingsF, hok, Bool.false_eq_true, if_false]⟩

/-- C10: the embeddings helper partitions the input into consecutive batches
of at most 16 texts in input order and issues one upstream request per
batch; when every batch responds OK with one embedding per text, the result
is the concatenation of the per-batch embeddings, aligning the i-th output
with the i-th input; a non-OK batch raises `ArgoAPIError` with no partial
result. -/
theorem embeddings_batching_spec (post : List String → HttpResponse)
    (texts : List String) (g : String → Json)
    (h : ∀ b ∈ chunks16 texts, (post b).ok = true ∧ embeddingsOf (post b) = b.map g) :
    getEmbeddingsFromArgo post texts = .ok (texts.map g)
    ∧ (∀ c ∈ chunks16 texts, c.length ≤ 16 ∧ c ≠ [])
    ∧ (chunks16 texts).flatten = texts
    ∧ (∀ post2 : List String → HttpResponse,
        (∃ b ∈ chunks16 texts, (post2 b).ok = false) →
        ∃ e, getEmbeddingsFromArgo post2 texts = .error e) :=
  ⟨getEmbeddingsF_ok post g (texts.length + 1) texts (Nat.le_succ _) h,
   fun c hc => chunks16F_len_le (texts.length + 1) texts c hc,
   chunks16F_flatten (texts.length + 1) texts (Nat.le_succ _),
   fun post2 hex => getEmbeddingsF_error post2 (texts.length + 1) texts hex⟩

/-- Witness for C10 at a two-text input answered by one OK batch response
with two embeddings. -/
theorem embeddings_batching_spec_witness :
    (∀ b ∈ chunks16 ["a", "b"],
      ((fun _ => witnessEmbResponse) b).ok = true
      ∧ embeddingsOf ((fun _ => witnessEmbResponse) b) = b.map fun _ => Json.null)
    ∧ getEmbeddingsFromArgo (fun _ => witnessEmbResponse) ["a", "b"]
        = .ok (["a", "b"].map fun _ => Json.null) := by
  have hh : ∀ b ∈ chunks16 ["a", "b"],
      ((fun _ => witnessEmbResponse) b).ok = true
      ∧ embeddingsOf ((fun _ => witnessEmbResponse) b) = b.map fun _ => Json.null := by
    intro b hb
    have hb2 : b = ["a", "b"] := by
      simpa [chunks16, chunks16F] using hb
    subst hb2
    exact ⟨by rfl, by rfl⟩
  exact ⟨hh, (embeddings_batching_spec (fun _ => witnessEmbResponse) ["a", "b"]
    (fun _ => Json.null) hh).1⟩

end ArgoBridge


